import Mathlib

/-!
Verification of `packages/key4hep-stack/common.py` (key4hep-spack).

The Python module is a set of helper utilities for spack recipes.  We give a
shallow embedding of its functions and prove the specification claims about
them.  External spack framework helpers that `common.py` calls
(`EnvironmentModifications.group_by_name`, the `execute` methods of the
environment-modification actions, `prune_duplicate_paths`, `cmd_quote`) are
modelled from their documented spack behaviour, since they are third-party
framework code consumed - not defined - by this repository.
-/

namespace K4

/-! ## Environment-modification actions

`k4_generate_setup_script` consumes a spack `EnvironmentModifications` log.
The actions relevant to this module (and named by it) are `SetEnv`,
`SetPath` and `PrependPath`; we embed the log as a list of these actions.
-/

inductive EnvAction where
  | setEnv (name value : String)
  | setPath (name : String) (paths : List String)
  | prependPath (name value : String)
deriving DecidableEq, Repr

/-- Python `sep.join(l)`. -/
def joinWith (sep : String) : List String → String
  | [] => ""
  | [x] => x
  | x :: y :: t => x ++ sep ++ joinWith sep (y :: t)

/-- Split a character list at every occurrence of `sep`. -/
def splitOnChar (sep : Char) : List Char → List (List Char)
  | [] => [[]]
  | c :: cs =>
    let r := splitOnChar sep cs
    if c = sep then [] :: r
    else
      match r with
      | [] => [[c]]
      | h :: t => (c :: h) :: t

/-- Python `s.split(sep)` for a one-character separator:
the empty string yields `[""]`. -/
def pySplitChar (sep : Char) (s : String) : List String :=
  (splitOnChar sep s.toList).map String.mk

def actionName : EnvAction → String
  | .setEnv n _ => n
  | .setPath n _ => n
  | .prependPath n _ => n

/-- `isinstance(x, (SetPath, SetEnv))` from line 49 of common.py. -/
def isSetAction : EnvAction → Bool
  | .setEnv _ _ => true
  | .setPath _ _ => true
  | .prependPath _ _ => false

/-- Spack `NameModifier.execute` semantics on a `new_env` dictionary, for the
current value `cur` of the action's own variable:
`SetEnv`: `env[name] = value`; `SetPath`: `env[name] = separator.join(value)`;
`PrependPath`: split the current value on `:` (empty or missing value gives an
empty list), cons the new value, rejoin.  (Spack normalises the prepended path
with `os.path.normpath`; values are modelled as already-normalised paths.) -/
def execute : EnvAction → Option String → Option String
  | .setEnv _ v, _ => some v
  | .setPath _ ps, _ => some (joinWith ":" ps)
  | .prependPath _ v, cur =>
    match cur with
    | none => some v
    | some s => if s = "" then some v else some (v ++ ":" ++ s)

/-! ## String helpers from spack / the standard library -/

/-- The single-quote character, written by code to keep shell-quoting data
out of the Lean source text. -/
def sq : Char := Char.ofNat 39

/-- The double-quote character. -/
def dq : Char := Char.ofNat 34

/-- Characters considered safe by `shlex.quote` besides alphanumerics and
the underscore: at, percent, plus, equals, colon, comma, dot, slash, dash
(the `_find_unsafe` regex finds everything else). -/
def shlexExtraSafe : List Char := "@%+=:,./-".toList

def isShlexSafe (c : Char) : Bool :=
  c.isAlphanum || c = Char.ofNat 95 || shlexExtraSafe.contains c

/-- Replacement performed by `shlex.quote`: each single quote becomes
the five characters quote, double-quote, quote, double-quote, quote. -/
def shlexEscape : List Char → List Char
  | [] => []
  | c :: cs =>
    if c = sq then [sq, dq, sq, dq, sq] ++ shlexEscape cs
    else c :: shlexEscape cs

/-- `cmd_quote` (spack re-export of `shlex.quote`): the empty string becomes
a pair of quotes, a string of safe characters is returned unchanged, anything
else is wrapped in single quotes with embedded quotes escaped. -/
def cmd_quote (s : String) : String :=
  if s = "" then String.mk [sq, sq]
  else if s.toList.all isShlexSafe then s
  else String.mk ([sq] ++ shlexEscape s.toList ++ [sq])

/-- Spack `llnl.util.lang.dedupe` generator: yield each element not yet seen,
recording every element in `seen`. -/
def dedupe (seen : List String) : List String → List String
  | [] => []
  | x :: xs =>
    if seen.contains x then dedupe (x :: seen) xs
    else x :: dedupe (x :: seen) xs

/-- Spack `prune_duplicate_paths`: `list(dedupe(paths))`. -/
def prune_duplicate_paths (paths : List String) : List String :=
  dedupe [] paths

/-- Lexicographic comparison of character lists by code point, the order
Python `sorted` uses on strings. -/
def charsLt : List Char → List Char → Bool
  | [], [] => false
  | [], _ :: _ => true
  | _ :: _, [] => false
  | a :: as, b :: bs =>
    if a.toNat < b.toNat then true
    else if b.toNat < a.toNat then false
    else charsLt as bs

def pyStrLt (a b : String) : Bool := charsLt a.toList b.toList

/-- Insert into a string list sorted in Python `sorted` order. -/
def insertStr (x : String) : List String → List String
  | [] => [x]
  | y :: ys => if pyStrLt x y then x :: y :: ys else y :: insertStr x ys

/-- Python `sorted` on a list of strings (stable insertion sort). -/
def sortStrs : List String → List String
  | [] => []
  | x :: xs => insertStr x (sortStrs xs)

/-! ## k4_generate_setup_script (common.py lines 27-77) -/

/-- The variable names of the grouped log, each once, in the `sorted` order
the per-name loop of `k4_generate_setup_script` visits them
(`sorted(modifications.items())` over `env_mod.group_by_name()`). -/
def k4_names (log : List EnvAction) : List String :=
  sortStrs (log.map actionName).dedup

/-- `group_by_name()[n]`: the sub-log of actions on variable `n`, in order. -/
def k4_ops (log : List EnvAction) (n : String) : List EnvAction :=
  log.filter (fun a => actionName a = n)

/-- `env_set_not_prepend[name]`: the or-fold of
`isinstance(x, (SetPath, SetEnv))` over the variable's actions
(common.py lines 46-49). -/
def env_set_not_prepend (log : List EnvAction) (n : String) : Bool :=
  (k4_ops log n).foldl (fun b a => b || isSetAction a) false

/-- `new_env[name]` after all the variable's actions have executed
(common.py line 51); `none` when the variable never occurs. -/
def k4_value (log : List EnvAction) (n : String) : Option String :=
  (k4_ops log n).foldl (fun cur a => execute a cur) none

/-- The names warned about by lines 52-53: any `set` among the actions and
more than one action on the variable. -/
def k4_warn_names (log : List EnvAction) : List String :=
  (k4_names log).filter
    (fun n => env_set_not_prepend log n && decide (1 < (k4_ops log n).length))

/-- `new_env[name]` after the deduplication pass of lines 56-59:
split on `:`, prune duplicates, rejoin. -/
def k4_new_env (log : List EnvAction) (n : String) : Option String :=
  (k4_value log n).map
    (fun v => joinWith ":" (prune_duplicate_paths (pySplitChar ':' v)))

/-- `k4_shell_set_strings[shell]` (line 64): dictionary lookup of the
format `export NAME=VALUE;` - only the key `sh` is present. -/
def k4_shell_set_string (shell : String) : Option (String → String → String) :=
  if shell = "sh" then some (fun n v => "export " ++ n ++ "=" ++ v ++ ";\n")
  else none

/-- `k4_shell_prepend_strings[shell]` (line 67): dictionary lookup of the
format `export NAME=VALUE:$NAME;` - only the key `sh` is present. -/
def k4_shell_prepend_string (shell : String) : Option (String → String → String) :=
  if shell = "sh" then
    some (fun n v => "export " ++ n ++ "=" ++ v ++ ":$" ++ n ++ ";\n")
  else none

/-- The command emitted for one variable by the loop of lines 70-76:
a `set` format when any action on the variable is a set, the prepend format
otherwise; `none` models the uncaught `KeyError` of an unknown shell. -/
def k4_cmd_for (log : List EnvAction) (n : String) (shell : String) :
    Option String :=
  match k4_new_env log n with
  | none => none
  | some v =>
    if env_set_not_prepend log n then
      (k4_shell_set_string shell).map (fun f => f n (cmd_quote v))
    else
      (k4_shell_prepend_string shell).map (fun f => f n (cmd_quote v))

/-- Accumulate the per-variable commands, propagating a raised `KeyError`
as `none`. -/
def optMapM (f : String → Option String) : List String → Option (List String)
  | [] => some []
  | x :: xs =>
    match f x with
    | none => none
    | some y =>
      match optMapM f xs with
      | none => none
      | some ys => some (y :: ys)

/-- The `cmds` list built by `k4_generate_setup_script`. -/
def k4_cmds (log : List EnvAction) (shell : String) : Option (List String) :=
  optMapM (fun n => k4_cmd_for log n shell) (k4_names log)

/-- `k4_generate_setup_script(env_mod, shell)` (common.py lines 27-77):
`''.join(cmds)`; `none` models an uncaught exception. -/
def k4_generate_setup_script (log : List EnvAction) (shell : String) :
    Option String :=
  (k4_cmds log shell).map String.join

/-- The deduplicated value a variable of the log is rendered with
(defaulting to the empty string for a variable not in the log). -/
def k4_final_value (log : List EnvAction) (n : String) : String :=
  (k4_new_env log n).getD ""

def strStartsWith (s pre : String) : Bool := pre.toList.isPrefixOf s.toList

def strEndsWith (s post : String) : Bool :=
  post.toList.reverse.isPrefixOf s.toList.reverse

/-! ## k4_lookup_latest_commit (common.py lines 79-109)

The function builds a curl command from the repository description and the
optional `GITHUB_USER` / `GITHUB_TOKEN` environment variables, runs it, and
validates the response text with `int(commit, 16)`, returning the raw text.
The HTTP exchange is external, so the command construction and the
response validation are embedded separately, with the environment variables
and the response text as explicit arguments.
-/

/-- Python `template % sub` for a template holding one `%s`:
the first `%s` occurrence is replaced by `sub`.  (A template with no or
several `%s` raises in Python; the claims fix a single-`%s` template, per
the docstring of `k4_lookup_latest_commit`.) -/
def pctS : List Char → String → List Char
  | [], _ => []
  | '%' :: 's' :: rest, sub => sub.toList ++ rest
  | c :: rest, sub => c :: pctS rest sub

def pySubst (template sub : String) : String :=
  String.mk (pctS template.toList sub)

/-- The `curl_command` string assembled on lines 98-106: a space-join of
`"curl -s "`, the optional `" -u user:token "` element (present exactly when
both `GITHUB_USER` and `GITHUB_TOKEN` are non-empty), the substituted url,
and the Accept-header element. -/
def k4_curl_command (github_user github_token repoinfo giturl : String) :
    String :=
  joinWith " "
    (["curl -s "] ++
      (if github_user ≠ "" && github_token ≠ "" then
        [" -u " ++ github_user ++ ":" ++ github_token ++ " "]
      else []) ++
      [pySubst giturl repoinfo] ++
      [" -H " ++ String.mk [dq] ++ "Accept: application/vnd.github.VERSION.sha"
        ++ String.mk [dq] ++ " "])

/-- Python whitespace stripped by `int` (ASCII part). -/
def isPySpace (c : Char) : Bool :=
  c = ' ' || c = '\t' || c = '\n' || c = '\x0d' || c = '\x0b' || c = '\x0c'

def pyStrip (cs : List Char) : List Char :=
  ((cs.dropWhile isPySpace).reverse.dropWhile isPySpace).reverse

def isHexDigit16 (c : Char) : Bool :=
  c.isDigit || (97 ≤ c.toNat && c.toNat ≤ 102) || (65 ≤ c.toNat && c.toNat ≤ 70)

/-- Hex digits with single underscores allowed between digits (Python 3
numeric literal grouping), after the first character. -/
def hexRest : List Char → Bool
  | [] => true
  | c :: cs =>
    if isHexDigit16 c then hexRest cs
    else if c = '_' then
      match cs with
      | [] => false
      | d :: ds => isHexDigit16 d && hexRest ds
    else false

def hexBody : List Char → Bool
  | [] => false
  | c :: cs => isHexDigit16 c && hexRest cs

/-- Success predicate of Python `int(s, 16)`: optional surrounding
whitespace, optional sign, optional `0x`/`0X` prefix (an underscore may
directly follow the prefix), then a non-empty run of hex digits with
single underscores between digits. -/
def int_base16_ok (s : String) : Bool :=
  let cs := pyStrip s.toList
  let cs :=
    match cs with
    | c :: rest => if c = '+' || c = '-' then rest else c :: rest
    | [] => []
  match cs with
  | '0' :: x :: rest =>
    if x = 'x' || x = 'X' then
      match rest with
      | '_' :: rest2 => hexBody rest2
      | _ => hexBody rest
    else hexBody ('0' :: x :: rest)
  | _ => hexBody cs

/-- Lines 107-109 of `k4_lookup_latest_commit`: given the text read from the
curl subprocess, run `test = int(commit, 16)` and return the raw text;
`none` models the uncaught `ValueError` of a non-hex response. -/
def k4_lookup_latest_commit (response : String) : Option String :=
  if int_base16_ok response then some response else none

/-! ## Deprecated helpers (common.py lines 111-120)

Both function bodies are `pass`.  They are embedded as returning Python's
implicit `None` (here `Unit`) together with the list of external API
requests they perform, which is empty. -/

def k4_add_latest_commit_as_dependency
    (name repoinfo giturl variants whenArg : String) : Unit × List String :=
  ((), [])

def k4_add_latest_commit_as_version (git_url git_api_url : String) :
    Unit × List String :=
  ((), [])

/-! ## ilc_url_for_version (common.py lines 124-151) -/

/-- Python `url.rsplit(slash, 1)[0]`: everything before the last slash,
or the whole string when there is none. -/
def dropLastSegment (url : String) : String :=
  let parts := splitOnChar '/' url.toList
  if parts.length ≤ 1 then url
  else joinWith "/" (parts.dropLast.map String.mk)

/-- `%02d` on a nonnegative value: decimal, left-padded with `0` to width 2. -/
def pad2 (n : Nat) : String :=
  if n < 10 then "0" ++ toString n else toString n

/-- The `version_str` of lines 148-151: patch zero is omitted. -/
def ilc_version_str (major minor patch : Nat) : String :=
  if patch = 0 then "v" ++ pad2 major ++ "-" ++ pad2 minor ++ ".tar.gz"
  else "v" ++ pad2 major ++ "-" ++ pad2 minor ++ "-" ++ pad2 patch ++ ".tar.gz"

/-- `ilc_url_for_version(self, version)`: the version tuple is a list of
naturals; a tuple that is not of length 1, 2 or 3 makes the tuple-unpacking
`major, minor, patch = version` raise, modelled as `none`. -/
def ilc_url_for_version (url : String) (version : List Nat) : Option String :=
  match version with
  | [major] => some (dropLastSegment url ++ "/" ++ ilc_version_str major 0 0)
  | [major, minor] =>
    some (dropLastSegment url ++ "/" ++ ilc_version_str major minor 0)
  | [major, minor, patch] =>
    some (dropLastSegment url ++ "/" ++ ilc_version_str major minor patch)
  | _ => none

/-! ## install_setup_script (common.py lines 154-204)

The function logs versions, accumulates environment modifications for the
dependency graph (all delegated to the spack framework), renders them with
`k4_generate_setup_script`, writes the result to `setup.sh` under the
install target directory, and best-effort symlinks it.  The filesystem is
embedded as an explicit state; the rendered command text is an argument,
since its construction is the framework traversal.  Each primitive
filesystem call can also be made to fail by an injected fault, modelling
environment errors (permissions, races) caught by the bare `except`. -/

structure FS where
  dirs : List String
  files : List (String × String)
  links : List (String × String)
deriving DecidableEq, Repr

def lookupA (l : List (String × String)) (p : String) : Option String :=
  match l.find? (fun e => e.fst == p) with
  | some e => some e.snd
  | none => none

def removeA (l : List (String × String)) (p : String) :
    List (String × String) :=
  l.filter (fun e => e.fst != p)

def FS.fileAt (fs : FS) (p : String) : Option String := lookupA fs.files p

def FS.linkAt (fs : FS) (p : String) : Option String := lookupA fs.links p

def FS.isdir (fs : FS) (p : String) : Bool := fs.dirs.contains p

/-- `os.path.islink`. -/
def FS.islink (fs : FS) (p : String) : Bool := (fs.linkAt p).isSome

/-- `os.path.exists`: follows symlinks, so a dangling symlink does not
exist (one level of link indirection is modelled). -/
def FS.pathExists (fs : FS) (p : String) : Bool :=
  fs.isdir p || (fs.fileAt p).isSome ||
    (match fs.linkAt p with
     | some t => fs.dirs.contains t || (lookupA fs.files t).isSome
     | none => false)

/-- `open(p, "w")` followed by `f.write(c)`: create or truncate. -/
def FS.writeFile (fs : FS) (p c : String) : FS :=
  { fs with files := (p, c) :: removeA fs.files p }

/-- `os.makedirs(p)`: fails on an empty path or when anything already
occupies `p`. -/
def FS.makedirs (fs : FS) (p : String) : Except Unit FS :=
  if p = "" || fs.isdir p || (fs.fileAt p).isSome || fs.islink p then
    Except.error ()
  else Except.ok { fs with dirs := p :: fs.dirs }

/-- `os.remove(p)`: removes a file or a symlink (not following it);
fails on a directory or a missing path. -/
def FS.removePath (fs : FS) (p : String) : Except Unit FS :=
  if (fs.fileAt p).isSome then
    Except.ok { fs with files := removeA fs.files p }
  else if fs.islink p then
    Except.ok { fs with links := removeA fs.links p }
  else Except.error ()

/-- `os.symlink(target, p)`: fails when anything already occupies `p`,
a dangling symlink included. -/
def FS.symlink (fs : FS) (target p : String) : Except Unit FS :=
  if fs.isdir p || (fs.fileAt p).isSome || fs.islink p then Except.error ()
  else Except.ok { fs with links := (p, target) :: fs.links }

/-- `os.path.dirname` (posixpath): the part up to the last slash, with
trailing slashes stripped unless the result is all slashes. -/
def dirname (p : String) : String :=
  let pre := (p.toList.reverse.dropWhile (fun c => c ≠ '/')).reverse
  if pre = [] then ""
  else if pre.all (fun c => c = '/') then String.mk pre
  else String.mk (pre.reverse.dropWhile (fun c => c = '/')).reverse

/-- Injected environment faults for the three fallible calls of the
symlink block. -/
structure Faults where
  failMakedirs : Bool
  failRemove : Bool
  failSymlink : Bool
deriving DecidableEq, Repr

def noFaults : Faults := ⟨false, false, false⟩

/-- Run one fallible call: an injected fault or an intrinsic failure raises,
leaving the state as it was before the call. -/
def opRun (fault : Bool) (fs : FS) (r : Except Unit FS) : Except FS FS :=
  if fault then Except.error fs
  else
    match r with
    | Except.ok fs2 => Except.ok fs2
    | Except.error _ => Except.error fs

/-- The body of the `try` block, lines 192-201: nothing happens when the
environment variable is empty; otherwise create the missing parent
directory, remove whatever occupies the symlink path, and create the
symlink.  An `error` result carries the state at the point of the raise. -/
def symlinkBlock (flt : Faults) (symlink_path target : String) (fs : FS) :
    Except FS FS :=
  if symlink_path = "" then Except.ok fs
  else
    match
      (if fs.pathExists (dirname symlink_path) then Except.ok fs
       else opRun flt.failMakedirs fs (fs.makedirs (dirname symlink_path)))
    with
    | Except.error g => Except.error g
    | Except.ok g =>
      match
        (if g.pathExists symlink_path || g.islink symlink_path then
          opRun flt.failRemove g (g.removePath symlink_path)
        else Except.ok g)
      with
      | Except.error h => Except.error h
      | Except.ok h => opRun flt.failSymlink h (h.symlink target symlink_path)

/-- The file-writing tail of `install_setup_script` (lines 186-203):
write the rendered commands to `setup.sh` under the install target
directory, then attempt the symlink inside `try`; the bare `except` turns
any raise into a warning, returned as the boolean. -/
def install_setup_script (flt : Faults) (prefixDir cmds symlink_path : String)
    (fs : FS) : FS × Bool :=
  let fs1 := fs.writeFile (prefixDir ++ "/setup.sh") cmds
  match symlinkBlock flt symlink_path (prefixDir ++ "/setup.sh") fs1 with
  | Except.ok g => (g, false)
  | Except.error g => (g, true)

/-- The filesystem state a run of the `try` block leaves behind, whether it
raised or not. -/
def resState : Except FS FS → FS
  | Except.ok g => g
  | Except.error g => g

/-! ## Lemmas about the renderer -/

theorem perm_insertStr (x : String) (l : List String) :
    List.Perm (insertStr x l) (x :: l) := by
  induction l with
  | nil => simp [insertStr]
  | cons y ys ih =>
    by_cases h : pyStrLt x y = true
    · simp [insertStr, h]
    · simp only [insertStr, h, if_false, Bool.false_eq_true]
      exact (ih.cons y).trans (List.Perm.swap x y ys)

theorem perm_sortStrs (l : List String) : List.Perm (sortStrs l) l := by
  induction l with
  | nil => simp [sortStrs]
  | cons x xs ih => exact (perm_insertStr x (sortStrs xs)).trans (ih.cons x)

theorem mem_k4_names {log : List EnvAction} {n : String} :
    n ∈ k4_names log ↔ ∃ a ∈ log, actionName a = n := by
  rw [k4_names, (perm_sortStrs _).mem_iff, List.mem_dedup, List.mem_map]

theorem nodup_k4_names (log : List EnvAction) : (k4_names log).Nodup :=
  ((perm_sortStrs _).nodup_iff).2 (List.nodup_dedup _)

theorem k4_names_ne_nil {log : List EnvAction} (h : log ≠ []) :
    k4_names log ≠ [] := by
  intro hn
  have hp := perm_sortStrs (log.map actionName).dedup
  rw [k4_names] at hn
  rw [hn] at hp
  have h2 := (List.dedup_eq_nil _).1 hp.symm.eq_nil
  exact h (List.map_eq_nil.1 h2)

theorem foldl_or_eq_any (l : List EnvAction) (b : Bool) :
    l.foldl (fun b a => b || isSetAction a) b = (b || l.any isSetAction) := by
  induction l generalizing b with
  | nil => simp
  | cons a l ih =>
    rw [List.foldl_cons, ih (b || isSetAction a), List.any_cons, Bool.or_assoc]

theorem env_set_eq_any (log : List EnvAction) (n : String) :
    env_set_not_prepend log n = (k4_ops log n).any isSetAction := by
  rw [env_set_not_prepend, foldl_or_eq_any, Bool.false_or]

theorem execute_isSome (a : EnvAction) (c : Option String) :
    (execute a c).isSome := by
  cases a <;> cases c <;> simp [execute] <;> split <;> simp

theorem foldl_execute_isSome (l : List EnvAction) (c : Option String)
    (h : c.isSome ∨ l ≠ []) :
    (l.foldl (fun cur a => execute a cur) c).isSome := by
  induction l generalizing c with
  | nil => simpa using h.resolve_right (by simp)
  | cons a l ih => exact ih (execute a c) (Or.inl (execute_isSome a c))

theorem k4_value_isSome {log : List EnvAction} {n : String}
    (h : k4_ops log n ≠ []) : (k4_value log n).isSome :=
  foldl_execute_isSome _ none (Or.inr h)

theorem k4_ops_ne_nil {log : List EnvAction} {n : String}
    (h : n ∈ k4_names log) : k4_ops log n ≠ [] := by
  obtain ⟨a, ha, rfl⟩ := mem_k4_names.1 h
  intro hemp
  have hmem : a ∈ k4_ops log (actionName a) := by
    simp [k4_ops, List.mem_filter, ha]
  rw [hemp] at hmem
  exact (List.not_mem_nil a) hmem

theorem k4_new_env_some {log : List EnvAction} {n : String}
    (h : n ∈ k4_names log) :
    k4_new_env log n = some (k4_final_value log n) := by
  obtain ⟨v, hv⟩ := Option.isSome_iff_exists.1 (k4_value_isSome (k4_ops_ne_nil h))
  simp [k4_new_env, k4_final_value, hv]

/-- The single rendered line of one variable under shell `sh`. -/
def k4_line (log : List EnvAction) (n : String) : String :=
  if (k4_ops log n).any isSetAction then
    "export " ++ n ++ "=" ++ cmd_quote (k4_final_value log n) ++ ";\n"
  else
    "export " ++ n ++ "=" ++ cmd_quote (k4_final_value log n) ++ ":$" ++ n ++ ";\n"

theorem k4_cmd_for_sh {log : List EnvAction} {n : String}
    (h : n ∈ k4_names log) :
    k4_cmd_for log n "sh" = some (k4_line log n) := by
  rw [k4_cmd_for, k4_new_env_some h]
  rw [env_set_eq_any]
  by_cases hs : (k4_ops log n).any isSetAction = true
  · simp [hs, k4_shell_set_string, k4_line, k4_final_value]
  · simp [hs, k4_shell_prepend_string, k4_line, k4_final_value]

theorem k4_cmd_for_not_sh {log : List EnvAction} {n shell : String}
    (h : n ∈ k4_names log) (hs : shell ≠ "sh") :
    k4_cmd_for log n shell = none := by
  rw [k4_cmd_for, k4_new_env_some h]
  by_cases hb : env_set_not_prepend log n = true
  · simp [hb, k4_shell_set_string, hs]
  · simp [hb, k4_shell_prepend_string, hs]

theorem optMapM_eq_map {f : String → Option String} {g : String → String} :
    ∀ l : List String, (∀ x ∈ l, f x = some (g x)) →
      optMapM f l = some (l.map g)
  | [], _ => rfl
  | x :: xs, h => by
    rw [optMapM, h x (List.mem_cons_self x xs),
      optMapM_eq_map xs (fun y hy => h y (List.mem_cons_of_mem x hy))]
    simp

theorem k4_cmds_sh (log : List EnvAction) :
    k4_cmds log "sh" = some ((k4_names log).map (k4_line log)) :=
  optMapM_eq_map _ (fun n hn => k4_cmd_for_sh hn)

theorem k4_generate_sh (log : List EnvAction) :
    k4_generate_setup_script log "sh" =
      some (String.join ((k4_names log).map (k4_line log))) := by
  rw [k4_generate_setup_script, k4_cmds_sh]
  rfl

/-! ## Lemmas about dedupe -/

theorem sublist_dedupe : ∀ (l seen : List String), (dedupe seen l).Sublist l
  | [], _ => by simp [dedupe]
  | y :: ys, seen => by
    rw [dedupe]
    by_cases hc : seen.contains y = true
    · rw [if_pos hc]
      exact (sublist_dedupe ys (y :: seen)).trans (List.sublist_cons_self y ys)
    · rw [if_neg hc]
      exact (sublist_dedupe ys (y :: seen)).cons₂ y

theorem mem_dedupe (x : String) :
    ∀ (l seen : List String), x ∈ dedupe seen l ↔ (x ∈ l ∧ x ∉ seen)
  | [], seen => by simp [dedupe]
  | y :: ys, seen => by
    rw [dedupe]
    by_cases h : y ∈ seen
    · rw [if_pos (List.elem_iff.2 h), mem_dedupe x ys (y :: seen)]
      constructor
      · rintro ⟨hys, hns⟩
        exact ⟨List.mem_cons_of_mem y hys,
          fun hs => hns (List.mem_cons_of_mem y hs)⟩
      · rintro ⟨hor, hns⟩
        rcases List.mem_cons.1 hor with rfl | hys
        · exact absurd h hns
        · refine ⟨hys, fun hmem => ?_⟩
          rcases List.mem_cons.1 hmem with rfl | h2
          · exact hns h
          · exact hns h2
    · rw [if_neg (fun hh => h (List.elem_iff.1 hh))]
      constructor
      · intro hm
        rcases List.mem_cons.1 hm with rfl | hd
        · exact ⟨List.mem_cons_self x ys, h⟩
        · obtain ⟨hys, hns⟩ := (mem_dedupe x ys (y :: seen)).1 hd
          exact ⟨List.mem_cons_of_mem y hys,
            fun hs => hns (List.mem_cons_of_mem y hs)⟩
      · rintro ⟨hor, hns⟩
        rcases List.mem_cons.1 hor with rfl | hys
        · exact List.mem_cons_self x _
        · by_cases hxy : x = y
          · subst hxy
            exact List.mem_cons_self x _
          · refine List.mem_cons_of_mem y
              ((mem_dedupe x ys (y :: seen)).2 ⟨hys, fun hmem => ?_⟩)
            rcases List.mem_cons.1 hmem with rfl | h2
            · exact hxy rfl
            · exact hns h2

theorem nodup_dedupe : ∀ (l seen : List String), (dedupe seen l).Nodup
  | [], _ => by simp [dedupe]
  | y :: ys, seen => by
    rw [dedupe]
    by_cases hc : seen.contains y = true
    · rw [if_pos hc]
      exact nodup_dedupe ys (y :: seen)
    · rw [if_neg hc]
      rw [List.nodup_cons]
      refine ⟨fun hmem => ?_, nodup_dedupe ys (y :: seen)⟩
      exact ((mem_dedupe y ys (y :: seen)).1 hmem).2 (List.mem_cons_self y seen)

theorem prune_sublist (l : List String) :
    (prune_duplicate_paths l).Sublist l :=
  sublist_dedupe l []

theorem prune_nodup (l : List String) : (prune_duplicate_paths l).Nodup :=
  nodup_dedupe l []

theorem mem_prune (x : String) (l : List String) :
    x ∈ prune_duplicate_paths l ↔ x ∈ l := by
  rw [prune_duplicate_paths, mem_dedupe]
  simp

/-! ## String prefix and suffix helpers -/

theorem strStartsWith_of_eq_append (s a b : String) (h : s = a ++ b) :
    strStartsWith s a = true := by
  rw [strStartsWith, h]
  have ht : (a ++ b).toList = a.toList ++ b.toList := rfl
  rw [ht, List.isPrefixOf_iff_prefix]
  exact List.prefix_append a.toList b.toList

theorem strEndsWith_of_eq_append (s a b : String) (h : s = a ++ b) :
    strEndsWith s b = true := by
  rw [strEndsWith, h]
  have ht : (a ++ b).toList = a.toList ++ b.toList := rfl
  rw [ht, List.reverse_append, List.isPrefixOf_iff_prefix]
  exact List.prefix_append b.toList.reverse a.toList.reverse

/-! ## Claim theorems for the renderer -/

/-- C1: for every environment-modification log, `k4_generate_setup_script`
renders each variable with at least one set operation (`SetEnv` or `SetPath`)
as a plain `export NAME=VALUE;` line, and each variable whose operations are
all prepends as a self-referential `export NAME=VALUE:$NAME;` line. -/
theorem claim_set_vs_prepend_rendering (log : List EnvAction) :
    k4_generate_setup_script log "sh" =
      some (String.join ((k4_names log).map (fun n =>
        if (k4_ops log n).any isSetAction then
          "export " ++ n ++ "=" ++ cmd_quote (k4_final_value log n) ++ ";\n"
        else
          "export " ++ n ++ "=" ++ cmd_quote (k4_final_value log n)
            ++ ":$" ++ n ++ ";\n"))) :=
  k4_generate_sh log

/-- C2: before rendering, each variable's accumulated value is split on `:`,
duplicate entries are removed keeping the first occurrence (the result is a
duplicate-free, order-preserving sublist with the same members), and the
parts are rejoined on `:`; a log of prepends of `/a`, `/b`, `/a` onto `PATH`
renders as `export PATH=/a:/b:$PATH;`. -/
theorem claim_dedup_paths :
    (∀ l : List String, (prune_duplicate_paths l).Sublist l ∧
      (prune_duplicate_paths l).Nodup ∧
      (∀ x, x ∈ prune_duplicate_paths l ↔ x ∈ l)) ∧
    (∀ (log : List EnvAction) (n v : String), k4_value log n = some v →
      k4_new_env log n =
        some (joinWith ":" (prune_duplicate_paths (pySplitChar ':' v)))) ∧
    k4_generate_setup_script
        [.prependPath "PATH" "/a", .prependPath "PATH" "/b",
          .prependPath "PATH" "/a"] "sh" =
      some "export PATH=/a:/b:$PATH;\n" := by
  refine ⟨fun l => ⟨prune_sublist l, prune_nodup l, fun x => mem_prune x l⟩,
    fun log n v hv => ?_, by decide⟩
  rw [k4_new_env, hv, Option.map_some']

/-- C2 witness: the dedup hypothesis discharged on the accumulated `PATH`
value `/a:/b:/a` of the example log. -/
theorem claim_dedup_paths_witness :
    k4_new_env
        [.prependPath "PATH" "/a", .prependPath "PATH" "/b",
          .prependPath "PATH" "/a"] "PATH" =
      some (joinWith ":" (prune_duplicate_paths (pySplitChar ':' "/a:/b:/a"))) :=
  claim_dedup_paths.2.1 _ "PATH" "/a:/b:/a" (by decide)

/-- C5: a variable with two or more set operations is warned about exactly
once, and the warning is not fatal: the rendering completes and the variable
still receives its well-formed `export` line among the emitted commands. -/
theorem claim_multiple_set_warning (log : List EnvAction) (n : String)
    (h : 2 ≤ ((k4_ops log n).filter isSetAction).length) :
    (k4_warn_names log).count n = 1 ∧
      ∃ cs, k4_cmds log "sh" = some cs ∧
        ("export " ++ n ++ "=" ++ cmd_quote (k4_final_value log n) ++ ";\n")
          ∈ cs ∧
        k4_generate_setup_script log "sh" = some (String.join cs) := by
  have hfil : (k4_ops log n).filter isSetAction ≠ [] := by
    intro he
    rw [he] at h
    simp at h
  obtain ⟨a, ha⟩ := List.exists_mem_of_ne_nil _ hfil
  have ha2 := List.mem_filter.1 ha
  have haops : a ∈ k4_ops log n := ha2.1
  have haset : isSetAction a = true := ha2.2
  have halog := List.mem_filter.1 haops
  have hname : actionName a = n := by simpa using halog.2
  have hmem : n ∈ k4_names log := mem_k4_names.2 ⟨a, halog.1, hname⟩
  have hany : (k4_ops log n).any isSetAction = true :=
    List.any_eq_true.2 ⟨a, haops, haset⟩
  have hlen : 2 ≤ (k4_ops log n).length :=
    le_trans h (List.length_filter_le _ _)
  have hwarn : n ∈ k4_warn_names log := by
    rw [k4_warn_names]
    refine List.mem_filter.2 ⟨hmem, ?_⟩
    rw [Bool.and_eq_true]
    exact ⟨by rw [env_set_eq_any]; exact hany, decide_eq_true (by omega)⟩
  refine ⟨List.count_eq_one_of_mem ((nodup_k4_names log).filter _) hwarn,
    (k4_names log).map (k4_line log), k4_cmds_sh log, ?_, k4_generate_sh log⟩
  refine List.mem_map.2 ⟨n, hmem, ?_⟩
  rw [k4_line, if_pos hany]

/-- C5 witness: a log setting `CC` twice. -/
theorem claim_multiple_set_warning_witness :
    2 ≤ ((k4_ops [.setEnv "CC" "/a", .setEnv "CC" "/b"] "CC").filter
          isSetAction).length ∧
      ((k4_warn_names [.setEnv "CC" "/a", .setEnv "CC" "/b"]).count "CC" = 1 ∧
        ∃ cs, k4_cmds [.setEnv "CC" "/a", .setEnv "CC" "/b"] "sh" = some cs ∧
          ("export " ++ "CC" ++ "=" ++
            cmd_quote (k4_final_value [.setEnv "CC" "/a", .setEnv "CC" "/b"]
              "CC") ++ ";\n") ∈ cs ∧
          k4_generate_setup_script [.setEnv "CC" "/a", .setEnv "CC" "/b"] "sh"
            = some (String.join cs)) :=
  ⟨by decide,
    claim_multiple_set_warning [.setEnv "CC" "/a", .setEnv "CC" "/b"] "CC"
      (by decide)⟩

/-- C8: only the `sh` dialect is supported: any other shell argument on a
non-empty log hits a failed dictionary lookup (an uncaught `KeyError`),
and under `sh` every emitted command is an `export ...;` statement. -/
theorem claim_sh_only :
    (∀ (log : List EnvAction) (shell : String), log ≠ [] → shell ≠ "sh" →
      k4_generate_setup_script log shell = none) ∧
    (∀ log : List EnvAction, ∃ lines,
      k4_generate_setup_script log "sh" = some (String.join lines) ∧
      ∀ c ∈ lines, strStartsWith c "export " = true ∧
        strEndsWith c ";\n" = true) := by
  constructor
  · intro log shell hlog hsh
    obtain ⟨n, rest, heq⟩ : ∃ n rest, k4_names log = n :: rest := by
      cases hcase : k4_names log with
      | nil => exact absurd hcase (k4_names_ne_nil hlog)
      | cons n rest => exact ⟨n, rest, rfl⟩
    have hmem : n ∈ k4_names log := by
      rw [heq]
      exact List.mem_cons_self n rest
    rw [k4_generate_setup_script, k4_cmds, heq, optMapM,
      k4_cmd_for_not_sh hmem hsh]
    rfl
  · intro log
    refine ⟨(k4_names log).map (k4_line log), k4_generate_sh log,
      fun c hc => ?_⟩
    obtain ⟨n, hn, rfl⟩ := List.mem_map.1 hc
    rw [k4_line]
    by_cases hany : (k4_ops log n).any isSetAction = true
    · rw [if_pos hany]
      constructor
      · exact strStartsWith_of_eq_append _ _
          (n ++ ("=" ++ (cmd_quote (k4_final_value log n) ++ ";\n")))
          (by simp [String.append_assoc])
      · exact strEndsWith_of_eq_append _
          ("export " ++ (n ++ ("=" ++ cmd_quote (k4_final_value log n)))) _
          (by simp [String.append_assoc])
    · rw [if_neg hany]
      constructor
      · exact strStartsWith_of_eq_append _ _
          (n ++ ("=" ++ (cmd_quote (k4_final_value log n) ++
            (":$" ++ (n ++ ";\n")))))
          (by simp [String.append_assoc])
      · exact strEndsWith_of_eq_append _
          ("export " ++ (n ++ ("=" ++ (cmd_quote (k4_final_value log n) ++
            (":$" ++ n))))) _
          (by simp [String.append_assoc])

/-- C8 witness: a one-variable log under the unsupported `csh` dialect. -/
theorem claim_sh_only_witness :
    k4_generate_setup_script [.setEnv "A" "1"] "csh" = none :=
  claim_sh_only.1 [.setEnv "A" "1"] "csh" (by decide) (by decide)

/-! ## Claim theorems for the small pure helpers -/

/-- C3: `ilc_url_for_version` drops the last path segment of the url,
appends a slash and the version string that zero-pads major and minor to
two digits, dash-joins the components and omits a zero patch; in
particular `(1,2)` gives `v01-02.tar.gz`, `(1,2,3)` gives
`v01-02-03.tar.gz` and `(1,2,0)` gives `v01-02.tar.gz`. -/
theorem claim_ilc_url_convention :
    (∀ (url : String) (M : Nat),
      ilc_url_for_version url [M] =
        some (dropLastSegment url ++ "/" ++
          ("v" ++ pad2 M ++ "-" ++ pad2 0 ++ ".tar.gz"))) ∧
    (∀ (url : String) (M m : Nat),
      ilc_url_for_version url [M, m] =
        some (dropLastSegment url ++ "/" ++
          ("v" ++ pad2 M ++ "-" ++ pad2 m ++ ".tar.gz"))) ∧
    (∀ (url : String) (M m p : Nat),
      ilc_url_for_version url [M, m, p] =
        some (dropLastSegment url ++ "/" ++
          (if p = 0 then "v" ++ pad2 M ++ "-" ++ pad2 m ++ ".tar.gz"
           else
             "v" ++ pad2 M ++ "-" ++ pad2 m ++ "-" ++ pad2 p
               ++ ".tar.gz"))) ∧
    ilc_url_for_version "https://x/y/z.tar.gz" [1, 2] =
      some "https://x/y/v01-02.tar.gz" ∧
    ilc_url_for_version "https://x/y/z.tar.gz" [1, 2, 3] =
      some "https://x/y/v01-02-03.tar.gz" ∧
    ilc_url_for_version "https://x/y/z.tar.gz" [1, 2, 0] =
      some "https://x/y/v01-02.tar.gz" := by
  refine ⟨fun url M => ?_, fun url M m => ?_, fun url M m p => ?_,
    by decide, by decide, by decide⟩
  · rw [ilc_url_for_version, ilc_version_str, if_pos rfl]
  · rw [ilc_url_for_version, ilc_version_str, if_pos rfl]
  · rw [ilc_url_for_version, ilc_version_str]

/-- C4: the commit lookup validates the response text with a base-16 parse,
raising exactly when the parse fails, and otherwise returns the raw
response unchanged; `a1b2c3` is returned as is. -/
theorem claim_commit_hex_validation :
    (∀ s : String,
      k4_lookup_latest_commit s = none ↔ int_base16_ok s = false) ∧
    (∀ s r : String, k4_lookup_latest_commit s = some r → r = s) ∧
    k4_lookup_latest_commit "a1b2c3" = some "a1b2c3" ∧
    k4_lookup_latest_commit "404: Not Found" = none := by
  refine ⟨fun s => ?_, fun s r h => ?_, by decide, by decide⟩
  · rw [k4_lookup_latest_commit]
    cases hb : int_base16_ok s <;> simp [hb]
  · rw [k4_lookup_latest_commit] at h
    by_cases hb : int_base16_ok s = true
    · rw [if_pos hb] at h
      exact (Option.some_inj.1 h).symm
    · rw [if_neg hb] at h
      exact absurd h (by simp)

/-- C4 witness: the hex-parseable response `a1b2c3` is returned unchanged. -/
theorem claim_commit_hex_validation_witness :
    k4_lookup_latest_commit "a1b2c3" = some "a1b2c3" ∧
      ("a1b2c3" : String) = "a1b2c3" :=
  ⟨claim_commit_hex_validation.2.2.1,
    claim_commit_hex_validation.2.1 "a1b2c3" "a1b2c3" (by decide)⟩

/-- C9: the constructed curl command carries the basic-auth element exactly
when both `GITHUB_USER` and `GITHUB_TOKEN` are non-empty; with either one
empty the command is the unauthenticated form. -/
theorem claim_curl_auth_iff
    (github_user github_token repoinfo giturl : String) :
    k4_curl_command github_user github_token repoinfo giturl =
      (if github_user = "" ∨ github_token = "" then
        "curl -s " ++ " " ++ pySubst giturl repoinfo ++ " " ++
          (" -H " ++ String.mk [dq] ++
            "Accept: application/vnd.github.VERSION.sha" ++ String.mk [dq]
            ++ " ")
      else
        "curl -s " ++ " " ++
          (" -u " ++ github_user ++ ":" ++ github_token ++ " ") ++ " " ++
          pySubst giturl repoinfo ++ " " ++
          (" -H " ++ String.mk [dq] ++
            "Accept: application/vnd.github.VERSION.sha" ++ String.mk [dq]
            ++ " ")) := by
  by_cases hu : github_user = ""
  · simp [k4_curl_command, joinWith, hu, String.append_assoc]
  · by_cases ht : github_token = ""
    · simp [k4_curl_command, joinWith, hu, ht, String.append_assoc]
    · simp [k4_curl_command, joinWith, hu, ht, String.append_assoc]

/-- C10: the deprecated helpers return `None` for every argument and
perform no external request. -/
theorem claim_deprecated_noops :
    (∀ name repoinfo giturl variants whenArg : String,
      k4_add_latest_commit_as_dependency name repoinfo giturl variants
        whenArg = ((), [])) ∧
    (∀ git_url git_api_url : String,
      k4_add_latest_commit_as_version git_url git_api_url = ((), [])) :=
  ⟨fun _ _ _ _ _ => rfl, fun _ _ => rfl⟩

/-! ## Lemmas about the filesystem model -/

theorem lookupA_cons_self (e : String × String)
    (l : List (String × String)) : lookupA (e :: l) e.fst = some e.snd := by
  rw [lookupA, List.find?_cons_of_pos _ (by simp)]

theorem lookupA_cons_ne (e : String × String) (l : List (String × String))
    (q : String) (h : q ≠ e.fst) : lookupA (e :: l) q = lookupA l q := by
  rw [lookupA, List.find?_cons_of_neg _ (by simp [Ne.symm h])]
  rfl

theorem lookupA_removeA_self (l : List (String × String)) (p : String) :
    lookupA (removeA l p) p = none := by
  induction l with
  | nil => rfl
  | cons e l ih =>
    rw [removeA, List.filter_cons]
    by_cases h : e.fst = p
    · rw [if_neg (by simp [h])]
      exact ih
    · rw [if_pos (by simp [h])]
      rw [lookupA_cons_ne e _ p (fun he => h he.symm)]
      exact ih

theorem lookupA_removeA_ne (l : List (String × String)) (p q : String)
    (h : q ≠ p) : lookupA (removeA l p) q = lookupA l q := by
  induction l with
  | nil => rfl
  | cons e l ih =>
    rw [removeA, List.filter_cons]
    by_cases he : e.fst = p
    · rw [if_neg (by simp [he])]
      rw [lookupA_cons_ne e l q (by rw [he]; exact h)]
      exact ih
    · rw [if_pos (by simp [he])]
      by_cases hq : q = e.fst
      · rw [hq, lookupA_cons_self, lookupA_cons_self]
      · rw [lookupA_cons_ne e _ q hq, lookupA_cons_ne e l q hq]
        exact ih

theorem pathExists_false_isdir {fs : FS} {p : String}
    (h : fs.pathExists p = false) : fs.isdir p = false := by
  rw [FS.pathExists] at h
  rcases Bool.or_eq_false_iff.1 h with ⟨h1, _⟩
  exact (Bool.or_eq_false_iff.1 h1).1

theorem pathExists_false_fileAt {fs : FS} {p : String}
    (h : fs.pathExists p = false) : fs.fileAt p = none := by
  rw [FS.pathExists] at h
  rcases Bool.or_eq_false_iff.1 h with ⟨h1, _⟩
  have := (Bool.or_eq_false_iff.1 h1).2
  rcases hf : fs.fileAt p with _ | c
  · rfl
  · rw [hf] at this
    simp at this

theorem pathExists_false_of_parts {fs : FS} {p : String}
    (h4 : fs.isdir p = false) (hf : fs.fileAt p = none)
    (hl : fs.linkAt p = none) : fs.pathExists p = false := by
  rw [FS.pathExists, h4, hf, hl]
  rfl

theorem opRun_error_eq {fault : Bool} {fs : FS} {r : Except Unit FS} {g : FS}
    (h : opRun fault fs r = Except.error g) : g = fs := by
  simp only [opRun] at h
  by_cases hf : fault = true
  · rw [if_pos hf] at h
    injection h with h
    exact h.symm
  · rw [if_neg hf] at h
    rcases r with e | f2
    · injection h with h
      exact h.symm
    · exact Except.noConfusion h

theorem opRun_ok_eq {fault : Bool} {fs : FS} {r : Except Unit FS} {g : FS}
    (h : opRun fault fs r = Except.ok g) : r = Except.ok g := by
  simp only [opRun] at h
  by_cases hf : fault = true
  · rw [if_pos hf] at h
    exact Except.noConfusion h
  · rw [if_neg hf] at h
    rcases r with e | f2
    · exact Except.noConfusion h
    · simpa using h

theorem makedirs_ok {fs : FS} {p : String} {g : FS}
    (h : fs.makedirs p = Except.ok g) :
    g = ⟨p :: fs.dirs, fs.files, fs.links⟩ := by
  rw [FS.makedirs] at h
  by_cases hc : (decide (p = "") || fs.isdir p || (fs.fileAt p).isSome
      || fs.islink p) = true
  · rw [if_pos hc] at h
    exact Except.noConfusion h
  · rw [if_neg hc] at h
    injection h with h
    exact h.symm

theorem removePath_ok {fs : FS} {p : String} {g : FS}
    (h : fs.removePath p = Except.ok g) :
    g = ⟨fs.dirs, removeA fs.files p, fs.links⟩ ∨
      g = ⟨fs.dirs, fs.files, removeA fs.links p⟩ := by
  rw [FS.removePath] at h
  by_cases h1 : (fs.fileAt p).isSome = true
  · rw [if_pos h1] at h
    injection h with h
    exact Or.inl h.symm
  · rw [if_neg h1] at h
    by_cases h2 : fs.islink p = true
    · rw [if_pos h2] at h
      injection h with h
      exact Or.inr h.symm
    · rw [if_neg h2] at h
      exact Except.noConfusion h

theorem symlink_ok {fs : FS} {t p : String} {g : FS}
    (h : fs.symlink t p = Except.ok g) :
    g = ⟨fs.dirs, fs.files, (p, t) :: fs.links⟩ := by
  rw [FS.symlink] at h
  by_cases hc : (fs.isdir p || (fs.fileAt p).isSome || fs.islink p) = true
  · rw [if_pos hc] at h
    exact Except.noConfusion h
  · rw [if_neg hc] at h
    injection h with h
    exact h.symm

/-- Whatever happens inside the `try` block - success, an intrinsic failure
or an injected fault - the files of the resulting state are those of the
input state, except possibly for a removal at the symlink path itself. -/
theorem symlinkBlock_files (flt : Faults) (sp t : String) (fs : FS) :
    (resState (symlinkBlock flt sp t fs)).files = fs.files ∨
      (resState (symlinkBlock flt sp t fs)).files = removeA fs.files sp := by
  by_cases hsp : sp = ""
  · rw [symlinkBlock, if_pos hsp]
    exact Or.inl rfl
  · rw [symlinkBlock, if_neg hsp]
    rcases hr1 : (if fs.pathExists (dirname sp) then Except.ok fs
        else opRun flt.failMakedirs fs (fs.makedirs (dirname sp)))
      with g | g
    all_goals
      have hgf : g.files = fs.files := by
        by_cases hpe : fs.pathExists (dirname sp) = true
        · rw [if_pos hpe] at hr1
          first
          | (injection hr1 with hr1; rw [hr1])
          | exact Except.noConfusion hr1
        · rw [if_neg hpe] at hr1
          first
          | rw [opRun_error_eq hr1]
          | (rw [makedirs_ok (opRun_ok_eq hr1)])
    · dsimp only [resState]
      exact Or.inl hgf
    · dsimp only
      rcases hr2 : (if g.pathExists sp || g.islink sp then
          opRun flt.failRemove g (g.removePath sp)
        else Except.ok g) with h | h
      all_goals
        have hhf : h.files = fs.files ∨ h.files = removeA fs.files sp := by
          by_cases hc2 : (g.pathExists sp || g.islink sp) = true
          · rw [if_pos hc2] at hr2
            first
            | (rw [opRun_error_eq hr2, hgf]; exact Or.inl rfl)
            | (rcases removePath_ok (opRun_ok_eq hr2) with he | he <;>
                rw [he] <;> simp [hgf])
          · rw [if_neg hc2] at hr2
            first
            | exact Except.noConfusion hr2
            | (injection hr2 with hr2; rw [← hr2, hgf]; exact Or.inl rfl)
      · dsimp only [resState]
        exact hhf
      · dsimp only
        rcases hr3 : opRun flt.failSymlink h (h.symlink t sp) with k | k
        · dsimp only [resState]
          rw [opRun_error_eq hr3]
          exact hhf
        · dsimp only [resState]
          rw [symlink_ok (opRun_ok_eq hr3)]
          exact hhf

/-- C6: every exception raised while creating the symlink's parent directory
or the symlink itself is caught and surfaced only as the logged warning,
and the setup script written to `setup.sh` under the install target
directory is present in the final state no matter which faults fire. -/
theorem claim_symlink_errors_caught (flt : Faults)
    (prefixDir cmds sp : String) (fs : FS)
    (h7 : sp ≠ prefixDir ++ "/setup.sh") :
    (install_setup_script flt prefixDir cmds sp fs).1.fileAt
        (prefixDir ++ "/setup.sh") = some cmds ∧
    (∀ g, symlinkBlock flt sp (prefixDir ++ "/setup.sh")
        (fs.writeFile (prefixDir ++ "/setup.sh") cmds) = Except.error g →
      (install_setup_script flt prefixDir cmds sp fs).2 = true) := by
  constructor
  · have hres : (install_setup_script flt prefixDir cmds sp fs).1 =
        resState (symlinkBlock flt sp (prefixDir ++ "/setup.sh")
          (fs.writeFile (prefixDir ++ "/setup.sh") cmds)) := by
      simp only [install_setup_script]
      rcases hb : symlinkBlock flt sp (prefixDir ++ "/setup.sh")
          (fs.writeFile (prefixDir ++ "/setup.sh") cmds) with g | g
      · rfl
      · rfl
    rw [hres]
    rcases symlinkBlock_files flt sp (prefixDir ++ "/setup.sh")
        (fs.writeFile (prefixDir ++ "/setup.sh") cmds) with hfl | hfl
    · rw [FS.fileAt, hfl]
      simp only [FS.writeFile]
      exact lookupA_cons_self (prefixDir ++ "/setup.sh", cmds) _
    · rw [FS.fileAt, hfl]
      rw [lookupA_removeA_ne _ sp _ (Ne.symm h7)]
      simp only [FS.writeFile]
      exact lookupA_cons_self (prefixDir ++ "/setup.sh", cmds) _
  · intro g hg
    simp only [install_setup_script]
    rw [hg]

theorem opRun_false (fs g : FS) :
    opRun false fs (Except.ok g) = Except.ok g := by
  simp [opRun]

theorem symlink_ok_of (X : FS) (t sp : String) (hd : X.isdir sp = false)
    (hfn : X.fileAt sp = none) (hln : X.linkAt sp = none) :
    X.symlink t sp = Except.ok ⟨X.dirs, X.files, (sp, t) :: X.links⟩ := by
  rw [FS.symlink, if_neg]
  intro hc
  rw [hd, hfn, FS.islink, hln] at hc
  exact Bool.noConfusion hc

/-- The remove and symlink steps of the `try` block under no injected
faults: whatever occupied the symlink path is removed and the link is
created, leaving directories untouched and other files unchanged. -/
theorem symlinkSteps23 (sp t : String) (g0 : FS)
    (h3 : dirname sp ≠ sp)
    (h4 : g0.isdir sp = false)
    (h5 : g0.islink (dirname sp) = false)
    (h6 : g0.fileAt sp = none ∨ g0.linkAt sp = none) :
    ∃ g,
      (match
        (if g0.pathExists sp || g0.islink sp then
          opRun noFaults.failRemove g0 (g0.removePath sp)
        else Except.ok g0)
      with
      | Except.error h => Except.error h
      | Except.ok h => opRun noFaults.failSymlink h (h.symlink t sp)) =
        Except.ok g ∧
      g.linkAt sp = some t ∧ g.fileAt sp = none ∧ g.isdir sp = false ∧
      g.islink (dirname sp) = false ∧ g.dirs = g0.dirs ∧
      (∀ q, q ≠ sp → g.fileAt q = g0.fileAt q) := by
  have hfr : noFaults.failRemove = false := rfl
  have hfs : noFaults.failSymlink = false := rfl
  have h5' : lookupA g0.links (dirname sp) = none := by
    rw [FS.islink] at h5
    rcases hc : g0.linkAt (dirname sp) with _ | t0
    · exact hc
    · rw [hc] at h5
      exact Bool.noConfusion h5
  rcases hf : g0.fileAt sp with _ | c
  · rcases hl : g0.linkAt sp with _ | t0
    · have hpe : g0.pathExists sp = false := pathExists_false_of_parts h4 hf hl
      have hil : g0.islink sp = false := by
        rw [FS.islink, hl]
        rfl
      rw [if_neg (by simp [hpe, hil])]
      dsimp only
      have hsy := symlink_ok_of g0 t sp h4 hf hl
      refine ⟨⟨g0.dirs, g0.files, (sp, t) :: g0.links⟩, ?_, ?_, hf, h4, ?_,
        rfl, fun q hq => rfl⟩
      · rw [hfs, hsy, opRun_false]
      · exact lookupA_cons_self (sp, t) g0.links
      · show (lookupA ((sp, t) :: g0.links) (dirname sp)).isSome = false
        rw [lookupA_cons_ne (sp, t) g0.links (dirname sp) h3, h5']
        rfl
    · have hil : g0.islink sp = true := by
        rw [FS.islink, hl]
        rfl
      rw [if_pos (by simp [hil])]
      have hrm : g0.removePath sp =
          Except.ok ⟨g0.dirs, g0.files, removeA g0.links sp⟩ := by
        rw [FS.removePath, if_neg (by simp [hf]), if_pos hil]
      rw [hfr, hrm, opRun_false]
      dsimp only
      have hXl : (⟨g0.dirs, g0.files, removeA g0.links sp⟩ : FS).linkAt sp
          = none := lookupA_removeA_self g0.links sp
      have hsy := symlink_ok_of ⟨g0.dirs, g0.files, removeA g0.links sp⟩
        t sp h4 hf hXl
      refine ⟨⟨g0.dirs, g0.files, (sp, t) :: removeA g0.links sp⟩, ?_, ?_, hf,
        h4, ?_, rfl, fun q hq => rfl⟩
      · rw [hfs, hsy, opRun_false]
      · exact lookupA_cons_self (sp, t) (removeA g0.links sp)
      · show (lookupA ((sp, t) :: removeA g0.links sp) (dirname sp)).isSome
            = false
        rw [lookupA_cons_ne (sp, t) (removeA g0.links sp) (dirname sp) h3,
          lookupA_removeA_ne g0.links sp (dirname sp) h3, h5']
        rfl
  · have hl : g0.linkAt sp = none := by
      rcases h6 with h | h
      · rw [h] at hf
        exact Option.noConfusion hf
      · exact h
    have hpe : g0.pathExists sp = true := by
      rw [FS.pathExists, hf]
      simp
    rw [if_pos (by simp [hpe])]
    have hrm : g0.removePath sp =
        Except.ok ⟨g0.dirs, removeA g0.files sp, g0.links⟩ := by
      rw [FS.removePath, if_pos (by simp [hf])]
    rw [hfr, hrm, opRun_false]
    dsimp only
    have hXf : (⟨g0.dirs, removeA g0.files sp, g0.links⟩ : FS).fileAt sp
        = none := lookupA_removeA_self g0.files sp
    have hsy := symlink_ok_of ⟨g0.dirs, removeA g0.files sp, g0.links⟩
      t sp h4 hXf hl
    refine ⟨⟨g0.dirs, removeA g0.files sp, (sp, t) :: g0.links⟩, ?_, ?_, hXf,
      h4, ?_, rfl, fun q hq => ?_⟩
    · rw [hfs, hsy, opRun_false]
    · exact lookupA_cons_self (sp, t) g0.links
    · show (lookupA ((sp, t) :: g0.links) (dirname sp)).isSome = false
      rw [lookupA_cons_ne (sp, t) g0.links (dirname sp) h3, h5']
      rfl
    · show lookupA (removeA g0.files sp) q = lookupA g0.files q
      exact lookupA_removeA_ne g0.files sp q hq

/-- The whole `try` block under no injected faults, from a state where the
symlink path is not a directory, its parent is not a symlink, and the path
is not occupied by both a file and a link at once: the block succeeds, the
missing parent directory is created first, whatever occupied the path is
removed, and the symlink is created. -/
theorem symlinkBlock_noFaults (sp t : String) (fs : FS)
    (h1 : sp ≠ "") (h2 : dirname sp ≠ "") (h3 : dirname sp ≠ sp)
    (h4 : fs.isdir sp = false) (h5 : fs.islink (dirname sp) = false)
    (h6 : fs.fileAt sp = none ∨ fs.linkAt sp = none) :
    ∃ g, symlinkBlock noFaults sp t fs = Except.ok g ∧
      g.linkAt sp = some t ∧ g.fileAt sp = none ∧ g.isdir sp = false ∧
      g.islink (dirname sp) = false ∧
      (fs.pathExists (dirname sp) = false → g.isdir (dirname sp) = true) ∧
      (∀ q, q ≠ sp → g.fileAt q = fs.fileAt q) := by
  rw [symlinkBlock, if_neg h1]
  by_cases hB : fs.pathExists (dirname sp) = true
  · rw [if_pos hB]
    dsimp only
    obtain ⟨g, hok, c1, c2, c3, c4, c5, c6⟩ :=
      symlinkSteps23 sp t fs h3 h4 h5 h6
    refine ⟨g, hok, c1, c2, c3, c4, fun hfalse => ?_, c6⟩
    rw [hB] at hfalse
    exact Bool.noConfusion hfalse
  · have hBf : fs.pathExists (dirname sp) = false := by
      simpa using hB
    rw [if_neg hB]
    have hmk : fs.makedirs (dirname sp) =
        Except.ok ⟨dirname sp :: fs.dirs, fs.files, fs.links⟩ := by
      rw [FS.makedirs, if_neg (by simp [h2, pathExists_false_isdir hBf,
        pathExists_false_fileAt hBf, h5])]
    rw [show noFaults.failMakedirs = false from rfl, hmk, opRun_false]
    dsimp only
    have h4g : (⟨dirname sp :: fs.dirs, fs.files, fs.links⟩ : FS).isdir sp
        = false := by
      show ((sp == dirname sp) || fs.dirs.contains sp) = false
      rw [beq_eq_false_iff_ne.2 (Ne.symm h3)]
      rw [show fs.dirs.contains sp = false from h4]
      rfl
    obtain ⟨g, hok, c1, c2, c3, c4, c5, c6⟩ :=
      symlinkSteps23 sp t ⟨dirname sp :: fs.dirs, fs.files, fs.links⟩
        h3 h4g h5 h6
    refine ⟨g, hok, c1, c2, c3, c4, fun _ => ?_, c6⟩
    show g.dirs.contains (dirname sp) = true
    rw [c5]
    show ((dirname sp == dirname sp) || fs.dirs.contains (dirname sp)) = true
    rw [beq_self_eq_true]
    rfl

/-- The writing and symlinking tail of `install_setup_script` under no
faults: the script is written, the run reports no warning, and the symlink
path ends up pointing at the script. -/
theorem install_noFaults_run (prefixDir cmds sp : String) (fs : FS)
    (h1 : sp ≠ "") (h2 : dirname sp ≠ "") (h3 : dirname sp ≠ sp)
    (h4 : fs.isdir sp = false) (h5 : fs.islink (dirname sp) = false)
    (h6 : fs.fileAt sp = none ∨ fs.linkAt sp = none)
    (h7 : sp ≠ prefixDir ++ "/setup.sh") :
    ∃ g, install_setup_script noFaults prefixDir cmds sp fs = (g, false) ∧
      g.linkAt sp = some (prefixDir ++ "/setup.sh") ∧ g.fileAt sp = none ∧
      g.isdir sp = false ∧ g.islink (dirname sp) = false ∧
      ((fs.writeFile (prefixDir ++ "/setup.sh") cmds).pathExists (dirname sp)
          = false → g.isdir (dirname sp) = true) := by
  have h4w : (fs.writeFile (prefixDir ++ "/setup.sh") cmds).isdir sp
      = false := h4
  have h5w : (fs.writeFile (prefixDir ++ "/setup.sh") cmds).islink
      (dirname sp) = false := h5
  have hfw : (fs.writeFile (prefixDir ++ "/setup.sh") cmds).fileAt sp
      = fs.fileAt sp := by
    show lookupA ((prefixDir ++ "/setup.sh", cmds)
        :: removeA fs.files (prefixDir ++ "/setup.sh")) sp = fs.fileAt sp
    rw [lookupA_cons_ne (prefixDir ++ "/setup.sh", cmds) _ sp h7,
      lookupA_removeA_ne fs.files (prefixDir ++ "/setup.sh") sp h7]
    rfl
  have h6w : (fs.writeFile (prefixDir ++ "/setup.sh") cmds).fileAt sp = none
      ∨ (fs.writeFile (prefixDir ++ "/setup.sh") cmds).linkAt sp = none := by
    rcases h6 with h | h
    · exact Or.inl (by rw [hfw]; exact h)
    · exact Or.inr h
  obtain ⟨g, hok, c1, c2, c3, c4, c5, _⟩ :=
    symlinkBlock_noFaults sp (prefixDir ++ "/setup.sh")
      (fs.writeFile (prefixDir ++ "/setup.sh") cmds) h1 h2 h3 h4w h5w h6w
  refine ⟨g, ?_, c1, c2, c3, c4, c5⟩
  simp only [install_setup_script]
  rw [hok]

/-- C7: with a non-empty symlink-target variable, `install_setup_script`
creates the missing parent directory, removes whatever pre-existing file or
symlink (dangling included) occupies the target path, then creates the
symlink; re-running against the existing symlink it just made succeeds
without a warning and leaves the symlink pointing at the script. -/
theorem claim_symlink_replace (prefixDir cmds sp : String) (fs : FS)
    (h1 : sp ≠ "") (h2 : dirname sp ≠ "") (h3 : dirname sp ≠ sp)
    (h4 : fs.isdir sp = false) (h5 : fs.islink (dirname sp) = false)
    (h6 : fs.fileAt sp = none ∨ fs.linkAt sp = none)
    (h7 : sp ≠ prefixDir ++ "/setup.sh") :
    ((fs.writeFile (prefixDir ++ "/setup.sh") cmds).pathExists (dirname sp)
        = false →
      (install_setup_script noFaults prefixDir cmds sp fs).1.isdir
        (dirname sp) = true) ∧
    (install_setup_script noFaults prefixDir cmds sp fs).2 = false ∧
    (install_setup_script noFaults prefixDir cmds sp fs).1.linkAt sp =
      some (prefixDir ++ "/setup.sh") ∧
    (install_setup_script noFaults prefixDir cmds sp fs).1.fileAt sp
      = none ∧
    (install_setup_script noFaults prefixDir cmds sp
        (install_setup_script noFaults prefixDir cmds sp fs).1).2 = false ∧
    (install_setup_script noFaults prefixDir cmds sp
        (install_setup_script noFaults prefixDir cmds sp fs).1).1.linkAt sp
      = some (prefixDir ++ "/setup.sh") := by
  obtain ⟨g, hrun, c1, c2, c3, c4, c5⟩ :=
    install_noFaults_run prefixDir cmds sp fs h1 h2 h3 h4 h5 h6 h7
  obtain ⟨g2, hrun2, d1, d2, d3, d4, d5⟩ :=
    install_noFaults_run prefixDir cmds sp g h1 h2 h3 c3 c4 (Or.inl c2) h7
  rw [hrun]
  dsimp only
  rw [hrun2]
  exact ⟨c5, rfl, c1, c2, rfl, d1⟩

/-- C7 witness: a filesystem holding only a dangling symlink at the target
path (its referent `/gone` does not exist, so `os.path.exists` is false on
it), with the parent directory `/links` missing. -/
theorem claim_symlink_replace_witness :
    (((⟨[], [], [("/links/k4", "/gone")]⟩ : FS).writeFile
          ("/opt" ++ "/setup.sh") "X").pathExists (dirname "/links/k4")
        = false →
      (install_setup_script noFaults "/opt" "X" "/links/k4"
          ⟨[], [], [("/links/k4", "/gone")]⟩).1.isdir (dirname "/links/k4")
        = true) ∧
    (install_setup_script noFaults "/opt" "X" "/links/k4"
        ⟨[], [], [("/links/k4", "/gone")]⟩).2 = false ∧
    (install_setup_script noFaults "/opt" "X" "/links/k4"
        ⟨[], [], [("/links/k4", "/gone")]⟩).1.linkAt "/links/k4" =
      some ("/opt" ++ "/setup.sh") ∧
    (install_setup_script noFaults "/opt" "X" "/links/k4"
        ⟨[], [], [("/links/k4", "/gone")]⟩).1.fileAt "/links/k4" = none ∧
    (install_setup_script noFaults "/opt" "X" "/links/k4"
        (install_setup_script noFaults "/opt" "X" "/links/k4"
          ⟨[], [], [("/links/k4", "/gone")]⟩).1).2 = false ∧
    (install_setup_script noFaults "/opt" "X" "/links/k4"
        (install_setup_script noFaults "/opt" "X" "/links/k4"
          ⟨[], [], [("/links/k4", "/gone")]⟩).1).1.linkAt "/links/k4"
      = some ("/opt" ++ "/setup.sh") :=
  claim_symlink_replace "/opt" "X" "/links/k4"
    ⟨[], [], [("/links/k4", "/gone")]⟩ (by decide) (by decide) (by decide)
    (by decide) (by decide) (by decide) (by decide)

/-- C6 witness: a state where every fault is injected; the script file is
still present afterwards. -/
theorem claim_symlink_errors_caught_witness :
    (install_setup_script ⟨true, true, true⟩ "/opt" "X" "/links/k4"
        ⟨[], [], []⟩).1.fileAt ("/opt" ++ "/setup.sh") = some "X" ∧
      (∀ g, symlinkBlock ⟨true, true, true⟩ "/links/k4"
          ("/opt" ++ "/setup.sh")
          ((⟨[], [], []⟩ : FS).writeFile ("/opt" ++ "/setup.sh") "X") =
          Except.error g →
        (install_setup_script ⟨true, true, true⟩ "/opt" "X" "/links/k4"
            ⟨[], [], []⟩).2 = true) :=
  claim_symlink_errors_caught ⟨true, true, true⟩ "/opt" "X" "/links/k4"
    ⟨[], [], []⟩ (by decide)

end K4
